import Mathlib

/-!
Verification of the vector index manager of the arxiv-helper repository
(file src/indexer.py, class PaperIndexer).

The embedding below is a shallow model of the Python code.  Mutable
attributes of the PaperIndexer object (the faiss index contents, the two
id-map dictionaries, the database is_vectorized flags, and a trace of
save/add events used to state the checkpoint policy) are collected in an
explicit state record that every operation threads through.  External
collaborators (the sentence-transformer model, the metadata database, the
pdf text extraction, the faiss training routine and file persistence) are
modelled as an environment record of possibly failing functions, so the
theorems quantify over every behaviour of the collaborators.

Python exceptions are modelled with Except: each public method has a body
function returning Except (Err × state) (result × state), where an error
value carries the state at the moment the exception is raised; the public
method itself is the translation of the try/except wrapper of the source
and converts every body error to the default return value of the
corresponding except clause.

Machine floats are replaced by exact integer arithmetic: vectors are lists
of integers and the distance function is the squared L2 distance, which
induces the same ordering as the L2 distance itself.
-/

namespace AIdx

/-- Events recorded while operations run: a successful addition of a paper
to the index, or a call to save_index.  Used to state the checkpoint
policy of update_index. -/
inductive TraceEv
  | added
  | saved
deriving DecidableEq, Repr

/-- Errors that collaborator calls or internal faiss operations can
raise — including trainTooFewPoints, the exception faiss clustering
throws whenever the training sample holds fewer points than the
configured number of clusters — plus the error names of the
specification taxonomy (which the source never raises), so that claims
about them can be stated. -/
inductive Err
  | modelFailure
  | emptyInput
  | emptyQuery
  | indexNotTrained
  | insufficientTrainingData
  | trainTooFewPoints
  | documentNotFound
  | noText
  | dimMismatch
  | keyError
  | persistenceFailure
  | generic
deriving DecidableEq, Repr

/-- A paper row as far as the indexer is concerned: its stable external
ArXiv identifier.  The text of the paper is obtained through the
collaborator function get_paper_text, modelled in the environment. -/
structure Paper where
  arxivId : String
deriving DecidableEq, Repr

/-- Keys of an association list (the keys view of a Python dict). -/
def keysOf {α β : Type} (l : List (α × β)) : List α :=
  l.map Prod.fst

/-- Python dict lookup d.get(k): the value of the first entry with key k. -/
def dictGet {α β : Type} [DecidableEq α] (k : α) : List (α × β) → Option β
  | [] => none
  | p :: ps => if p.1 = k then some p.2 else dictGet k ps

/-- Python dict assignment d[k] = v: replace the entry if the key is
present, otherwise append a new entry. -/
def dictSet {α β : Type} [DecidableEq α] (k : α) (v : β) (l : List (α × β)) : List (α × β) :=
  if k ∈ keysOf l then l.map (fun p => if p.1 = k then (k, v) else p)
  else l ++ [(k, v)]

/-- Python dict deletion del d[k]: none models the KeyError raised when
the key is absent.  When the key is present (the only situation arising in
consistent states) all entries with that key are removed, which on a
duplicate-free dict removes exactly the one entry. -/
def dictDel {α β : Type} [DecidableEq α] (k : α) (l : List (α × β)) : Option (List (α × β)) :=
  if k ∈ keysOf l then some (l.filter (fun p => p.1 ≠ k)) else none

/-- Python max over a nonempty collection of integers; 0 for the empty
list, which the source never reaches because it guards with a
nonemptiness test. -/
def listMax : List Int → Int
  | [] => 0
  | x :: xs => max x (listMax xs)

/-- Internal id allocation of add_paper_to_index: max(id_map.keys()) + 1
when the id map is nonempty, 1 for the first entry. -/
def allocIndexId (m : List (Int × String)) : Int :=
  match m with
  | [] => 1
  | _ :: _ => listMax (keysOf m) + 1

/-- Squared L2 distance between two vectors; same ordering as the L2
distance reported by faiss. -/
def sqDist (a b : List Int) : Int :=
  ((a.zip b).map (fun p => (p.1 - p.2) ^ 2)).foldl (· + ·) 0

/-- Python falsiness test for an optional text: None and the empty string
are falsy, every other string is truthy. -/
def textFalsy : Option String → Bool
  | none => true
  | some s => s.isEmpty

/-- Python blank test used by find_similar_papers_by_text: text.strip()
is falsy exactly when every character is whitespace. -/
def stripFalsy (s : String) : Bool :=
  s.toList.all (fun c => c.isWhitespace)

/-- Set or clear the is_vectorized flag of a key in the database model. -/
def markFlag (k : String) (b : Bool) (l : List String) : List String :=
  if b then (if k ∈ l then l else l ++ [k]) else l.filter (fun x => x ≠ k)

/-- The mutable state of a PaperIndexer instance together with the
database flags it maintains: whether the underlying faiss index is the
IVF variant, whether it is trained, the fixed embedding dimension, the
vectors stored under internal ids (ntotal is the length of entries), the
forward and reverse id maps, the keys flagged is_vectorized in the
database, and the event trace. -/
structure IndexerState where
  isIVF : Bool
  trained : Bool
  dim : Nat
  entries : List (Int × List Int)
  id_map : List (Int × String)
  reverse_id_map : List (String × Int)
  vectorized : List String
  trace : List TraceEv
deriving DecidableEq, Repr

/-- Configuration constants read from config.py. -/
structure Config where
  indexType : String
  nlist : Nat
deriving DecidableEq, Repr

/-- The external collaborators: get_paper_text, the embedding model, the
database paper lookup, the unvectorized-papers query, faiss training and
file persistence.  Every failure mode of a collaborator is a value of
this record, so theorems quantified over the environment cover all of
them. -/
structure Env where
  getText : Paper → Except Err (Option String)
  encode : String → Except Err (List Int)
  dbPaper : String → Option Paper
  unvectorized : Nat → List Paper
  /-- Residual behaviour of faiss training on a sample that holds at
  least as many points as the configured cluster count; the deterministic
  raise on a smaller sample is modelled in updateIndexBody, before this
  function is consulted. -/
  train : List (List Int) → Except Err Unit
  save : Except Err Unit

/-- The try/except wrapper pattern shared by all public methods of
PaperIndexer: a normal body result is returned as is, and any exception
raised by the body is logged and replaced by the default return value of
the except clause, keeping the state reached at the moment of the
exception. -/
def runCaught {α : Type} (body : Except (Err × IndexerState) (α × IndexerState)) (dflt : α) :
    α × IndexerState :=
  match body with
  | .ok r => r
  | .error (_, s1) => (dflt, s1)

/-- save_index: writes the faiss index and the id maps to disk; failures
of the underlying writes propagate to the caller (the source re-raises).
A successful save is recorded in the trace. -/
def save_index (env : Env) (s : IndexerState) : Except (Err × IndexerState) IndexerState :=
  match env.save with
  | .error e => .error (e, s)
  | .ok _ => .ok { s with trace := s.trace ++ [TraceEv.saved] }

/-- Body of remove_paper_from_index (the code inside its try block):
early return when the key is absent, then faiss remove_ids, deletion of
both id-map directions, and clearing of the database flag. -/
def removePaperBody (env : Env) (s : IndexerState) (aid : String) :
    Except (Err × IndexerState) (Bool × IndexerState) :=
  if aid ∈ keysOf s.reverse_id_map then
    match dictGet aid s.reverse_id_map with
    | none => .error (Err.keyError, s)
    | some indexId =>
      let s1 := { s with entries := s.entries.filter (fun e => e.1 ≠ indexId) }
      match dictDel indexId s1.id_map with
      | none => .error (Err.keyError, s1)
      | some m =>
        let s2 := { s1 with id_map := m }
        match dictDel aid s2.reverse_id_map with
        | none => .error (Err.keyError, s2)
        | some r =>
          let s3 := { s2 with reverse_id_map := r }
          let s4 := { s3 with vectorized :=
            if (env.dbPaper aid).isSome then markFlag aid false s3.vectorized
            else s3.vectorized }
          .ok (true, s4)
  else .ok (true, s)

/-- remove_paper_from_index: the try/except wrapper around the body; any
exception is logged and converted to the return value False, keeping the
state reached at the moment of the exception. -/
def remove_paper_from_index (env : Env) (s : IndexerState) (aid : String) :
    Bool × IndexerState :=
  runCaught (removePaperBody env s aid) false

/-- The part of the add_paper_to_index body that follows the replace
step: text retrieval, embedding generation, id allocation, id-map
updates, faiss add_with_ids (which raises when the IVF index is untrained
or the vector dimension is wrong), and the database flag update. -/
def addAfterReplace (env : Env) (s1 : IndexerState) (p : Paper) :
    Except (Err × IndexerState) (Bool × IndexerState) :=
  match env.getText p with
  | .error e => .error (e, s1)
  | .ok t =>
    if textFalsy t then .ok (false, s1)
    else
      match env.encode (t.getD "") with
      | .error e => .error (e, s1)
      | .ok emb =>
        let indexId := allocIndexId s1.id_map
        let s2 := { s1 with
          id_map := dictSet indexId p.arxivId s1.id_map,
          reverse_id_map := dictSet p.arxivId indexId s1.reverse_id_map }
        if s2.isIVF ∧ s2.trained = false then .error (Err.indexNotTrained, s2)
        else if emb.length ≠ s2.dim then .error (Err.dimMismatch, s2)
        else
          let s3 := { s2 with entries := s2.entries ++ [(indexId, emb)] }
          let s4 := { s3 with
            vectorized := if (env.dbPaper p.arxivId).isSome
                          then markFlag p.arxivId true s3.vectorized
                          else s3.vectorized,
            trace := s3.trace ++ [TraceEv.added] }
          .ok (true, s4)

/-- Body of add_paper_to_index (the code inside its try block): replace
semantics (remove first when the key is already indexed, through the
public remove_paper_from_index, which swallows its own exceptions), then
the rest of the method. -/
def addPaperBody (env : Env) (s : IndexerState) (p : Paper) :
    Except (Err × IndexerState) (Bool × IndexerState) :=
  addAfterReplace env
    (if p.arxivId ∈ keysOf s.reverse_id_map
     then (remove_paper_from_index env s p.arxivId).2 else s) p

/-- add_paper_to_index: the try/except wrapper around the body; any
exception is logged and converted to the return value False, keeping the
state reached at the moment of the exception. -/
def add_paper_to_index (env : Env) (s : IndexerState) (p : Paper) :
    Bool × IndexerState :=
  runCaught (addPaperBody env s p) false

/-- Translation of one search hit to an external key, as in the result
loop of find_similar_papers: the -1 padding ids are dropped, the internal
id is looked up in the id map, and ids with no (or a falsy) entry are
silently dropped. -/
def idToKey (id_map : List (Int × String)) (r : Int × Int) : Option (String × Int) :=
  if r.1 ≠ -1 then
    match dictGet r.1 id_map with
    | some aid => if aid.isEmpty then none else some (aid, r.2)
    | none => none
  else none

/-- Body of find_similar_papers: empty-index early return, faiss search
(which raises on a query of the wrong dimension), truncation of top_k to
ntotal, and translation of internal ids to ArXiv ids. -/
def findSimilarBody (s : IndexerState) (q : List Int) (topK : Nat) :
    Except (Err × IndexerState) (List (String × Int) × IndexerState) :=
  if s.entries.length = 0 then .ok ([], s)
  else if q.length ≠ s.dim then .error (Err.dimMismatch, s)
  else
    let k := min topK s.entries.length
    let raw := (List.insertionSort (fun a b => a.2 ≤ b.2)
      (s.entries.map (fun e => (e.1, sqDist q e.2)))).take k
    let results := raw.filterMap (idToKey s.id_map)
    .ok (results, s)

/-- find_similar_papers: the try/except wrapper around the body; any
exception is logged and converted to an empty result list. -/
def find_similar_papers (s : IndexerState) (q : List Int) (topK : Nat) :
    List (String × Int) × IndexerState :=
  runCaught (findSimilarBody s q topK) []

/-- Body of find_similar_papers_by_id: database lookup of the paper (an
unknown id is an early empty return, not an exception), text retrieval
(falsy text is an early empty return), embedding generation, search for
top_k + 1 neighbours, filtering of the query paper itself and truncation
to top_k. -/
def findSimilarByIdBody (env : Env) (s : IndexerState) (aid : String) (topK : Nat) :
    Except (Err × IndexerState) (List (String × Int) × IndexerState) :=
  match env.dbPaper aid with
  | none => .ok ([], s)
  | some p =>
    match env.getText p with
    | .error e => .error (e, s)
    | .ok t =>
      if textFalsy t then .ok ([], s)
      else
        match env.encode (t.getD "") with
        | .error e => .error (e, s)
        | .ok q =>
          let r := find_similar_papers s q (topK + 1)
          let filtered := r.1.filter (fun x => x.1 ≠ aid)
          .ok (filtered.take topK, r.2)

/-- find_similar_papers_by_id: the try/except wrapper around the body;
any exception is logged and converted to an empty result list. -/
def find_similar_papers_by_id (env : Env) (s : IndexerState) (aid : String) (topK : Nat) :
    List (String × Int) × IndexerState :=
  runCaught (findSimilarByIdBody env s aid topK) []

/-- Body of find_similar_papers_by_text: the blank-query early return
(which in the source precedes the try block and returns an empty list),
then embedding generation and search. -/
def findSimilarByTextBody (env : Env) (s : IndexerState) (qt : String) (topK : Nat) :
    Except (Err × IndexerState) (List (String × Int) × IndexerState) :=
  if stripFalsy qt then .ok ([], s)
  else
    match env.encode qt with
    | .error e => .error (e, s)
    | .ok q => .ok (find_similar_papers s q topK)

/-- find_similar_papers_by_text: blank queries return an empty list
before the try block; any exception inside the try block is logged and
converted to an empty result list. -/
def find_similar_papers_by_text (env : Env) (s : IndexerState) (qt : String) (topK : Nat) :
    List (String × Int) × IndexerState :=
  runCaught (findSimilarByTextBody env s qt topK) []

/-- Training-vector collection of update_index: for each sample paper,
get_paper_text (exceptions propagate), skip falsy texts, and encode
(exceptions propagate). -/
def collectTrainVecs (env : Env) : List Paper → Except Err (List (List Int))
  | [] => .ok []
  | p :: ps =>
    match env.getText p with
    | .error e => .error e
    | .ok t =>
      if textFalsy t then collectTrainVecs env ps
      else
        match env.encode (t.getD "") with
        | .error e => .error e
        | .ok v =>
          match collectTrainVecs env ps with
          | .error e => .error e
          | .ok vs => .ok (v :: vs)

/-- The addition loop of update_index: add each pending paper through
add_paper_to_index (which never raises), count successes, and call
save_index whenever the running count is a positive multiple of 10
(save exceptions propagate). -/
def updateLoop (env : Env) : List Paper → Nat → IndexerState →
    Except (Err × IndexerState) (Nat × IndexerState)
  | [], count, s => .ok (count, s)
  | p :: ps, count, s =>
    let r := add_paper_to_index env s p
    let count1 := if r.1 then count + 1 else count
    if count1 > 0 ∧ count1 % 10 = 0 then
      match save_index env r.2 with
      | .error e => .error e
      | .ok s2 => updateLoop env ps count1 s2
    else updateLoop env ps count1 r.2

/-- Body of update_index: query of the pending unvectorized papers,
training of an untrained IVF index on at most 100 encoded sample texts
(silently skipped when no sample text encodes), the addition loop with
its periodic checkpoints, and a final save when anything was added.
The source calls self.index.train unguarded; faiss clustering refuses a
training sample smaller than the configured cluster count (its
Clustering train asserts nx at least k and throws otherwise), so that
raise is modelled deterministically here, while training on an adequate
sample is delegated to the environment. -/
def updateIndexBody (env : Env) (cfg : Config) (s : IndexerState) (batchSize : Nat) :
    Except (Err × IndexerState) (Nat × IndexerState) :=
  let pending := env.unvectorized batchSize
  if pending.isEmpty then .ok (0, s)
  else
    let trainRes : Except (Err × IndexerState) IndexerState :=
      if cfg.indexType = "IVFFlat" ∧ s.isIVF ∧ s.trained = false then
        let sample := pending.take (min 100 pending.length)
        match collectTrainVecs env sample with
        | .error e => .error (e, s)
        | .ok vs =>
          if vs.isEmpty then .ok s
          else if vs.length < cfg.nlist then .error (Err.trainTooFewPoints, s)
          else
            match env.train vs with
            | .error e => .error (e, s)
            | .ok _ => .ok { s with trained := true }
      else .ok s
    match trainRes with
    | .error e => .error e
    | .ok s1 =>
      match updateLoop env pending 0 s1 with
      | .error e => .error e
      | .ok (count, s2) =>
        if count > 0 then
          match save_index env s2 with
          | .error e => .error e
          | .ok s3 => .ok (count, s3)
        else .ok (count, s2)

/-- update_index: the try/except wrapper around the body; any exception
is logged and converted to the return value 0, keeping the state reached
at the moment of the exception. -/
def update_index (env : Env) (cfg : Config) (s : IndexerState) (batchSize : Nat) :
    Nat × IndexerState :=
  runCaught (updateIndexBody env cfg s batchSize) 0

/-- One public mutating operation of the PaperIndexer. -/
inductive Op
  | addP (p : Paper)
  | removeP (aid : String)
  | updateI (batchSize : Nat)
deriving Repr

/-- Run a sequence of public mutating operations, keeping only the state
(the return values are discarded). -/
def runOps (env : Env) (cfg : Config) : List Op → IndexerState → IndexerState
  | [], s => s
  | o :: os, s =>
    let s1 := match o with
      | Op.addP p => (add_paper_to_index env s p).2
      | Op.removeP aid => (remove_paper_from_index env s aid).2
      | Op.updateI b => (update_index env cfg s b).2
    runOps env cfg os s1

/-- Whether add_paper_to_index will succeed for a paper, as a function of
the collaborators and the index dimension only: the text must be
retrieved and truthy, and the embedding must be produced with the
dimension of the index. -/
def addSucceeds (env : Env) (d : Nat) (p : Paper) : Bool :=
  match env.getText p with
  | .error _ => false
  | .ok t =>
    if textFalsy t then false
    else
      match env.encode (t.getD "") with
      | .error _ => false
      | .ok v => v.length == d

/-- Number of successful additions recorded in a trace. -/
def addsIn (tr : List TraceEv) : Nat :=
  tr.countP (fun e => e = TraceEv.added)

/-- Number of saves recorded in a trace. -/
def savesIn (tr : List TraceEv) : Nat :=
  tr.countP (fun e => e = TraceEv.saved)

/-- Bounded unsaved work: in every prefix of the trace, the number of
additions exceeds ten times the number of saves by at most ten, so at no
point of the run are more than ten additions unpersisted. -/
def TraceBound (tr : List TraceEv) : Prop :=
  ∀ n, addsIn (tr.take n) ≤ 10 * savesIn (tr.take n) + 10

/-- Invariant carried through the addition loop of update_index: the
trace satisfies the unsaved-work bound, it records exactly the running
count of additions, and at a loop head at most count mod 10 additions are
unpersisted. -/
def LoopInv (tr : List TraceEv) (count : Nat) : Prop :=
  TraceBound tr ∧ addsIn tr = count ∧ count ≤ 10 * savesIn tr + count % 10

/-! ## Concrete states and environments for witnesses and counterexamples -/

/-- An empty exact (Flat) index of dimension 1: trained from the start. -/
def flatState : IndexerState :=
  { isIVF := false, trained := true, dim := 1, entries := [], id_map := [],
    reverse_id_map := [], vectorized := [], trace := [] }

/-- A fresh clustered (IVFFlat) index of dimension 1: untrained, which is
what the constructor builds under the default configuration. -/
def ivfState : IndexerState :=
  { isIVF := true, trained := false, dim := 1, entries := [], id_map := [],
    reverse_id_map := [], vectorized := [], trace := [] }

/-- The default configuration: IVFFlat with 100 clusters. -/
def cfgIVF : Config := { indexType := "IVFFlat", nlist := 100 }

/-- A fully cooperative environment: every paper has its id as text,
encoding yields the one-dimensional vector [0], training and saving
succeed, the database is empty. -/
def okEnv : Env :=
  { getText := fun p => .ok (some p.arxivId)
    encode := fun _ => .ok [0]
    dbPaper := fun _ => none
    unvectorized := fun _ => []
    train := fun _ => .ok ()
    save := .ok () }

/-- Environment whose text collaborator never yields a text. -/
def noTextEnv : Env := { okEnv with getText := fun _ => .ok none }

/-- Environment whose database knows every key but yields no text. -/
def noTextDbEnv : Env :=
  { okEnv with dbPaper := fun a => some ⟨a⟩, getText := fun _ => .ok none }

/-- A one-entry index holding key "A". -/
def stateWithA : IndexerState :=
  { isIVF := false, trained := true, dim := 1, entries := [(1, [0])],
    id_map := [(1, "A")], reverse_id_map := [("A", 1)], vectorized := ["A"], trace := [] }

/-- The three-document scenario of the specification: vectors [0,0],
[1,0] and [5,5] under keys "A", "B", "C". -/
def threeState : IndexerState :=
  { isIVF := false, trained := true, dim := 2,
    entries := [(1, [0, 0]), (2, [1, 0]), (3, [5, 5])],
    id_map := [(1, "A"), (2, "B"), (3, "C")],
    reverse_id_map := [("A", 1), ("B", 2), ("C", 3)],
    vectorized := [], trace := [] }

/-- Environment for key-based search over threeState: the database knows
every key and every text encodes to [0,0]. -/
def dbEnv : Env :=
  { okEnv with dbPaper := fun a => some ⟨a⟩, encode := fun _ => .ok [0, 0] }

/-- Environment with five pending papers, for the training-sample
scenario of the specification; its train function is never consulted
here, because the five-vector sample is below the cluster count and the
deterministic faiss raise in updateIndexBody strikes first. -/
def fiveEnv : Env :=
  { okEnv with unvectorized := fun _ => [⟨"a"⟩, ⟨"b"⟩, ⟨"c"⟩, ⟨"d"⟩, ⟨"e"⟩] }

/-- Environment with twelve pending papers, enough to cross the ten-item
checkpoint threshold of update_index. -/
def batchEnv : Env :=
  { okEnv with unvectorized := fun _ =>
      [⟨"p01"⟩, ⟨"p02"⟩, ⟨"p03"⟩, ⟨"p04"⟩, ⟨"p05"⟩, ⟨"p06"⟩, ⟨"p07"⟩, ⟨"p08"⟩,
       ⟨"p09"⟩, ⟨"p10"⟩, ⟨"p11"⟩, ⟨"p12"⟩] }

/-- Environment with two pending papers whose first paper fails to
encode, for the training-phase abort counterexample. -/
def trainAbortEnv : Env :=
  { okEnv with
    unvectorized := fun _ => [⟨"p1"⟩, ⟨"p2"⟩],
    encode := fun t => if t = "p1" then .error Err.modelFailure else .ok [0] }

/-- States reached by adding "A" and "B", removing "B", then adding "C",
used to exhibit internal-id reuse. -/
def reuseS1 : IndexerState := (add_paper_to_index okEnv flatState ⟨"A"⟩).2

def reuseS2 : IndexerState := (add_paper_to_index okEnv reuseS1 ⟨"B"⟩).2

def reuseS3 : IndexerState := (remove_paper_from_index okEnv reuseS2 "B").2

def reuseS4 : IndexerState := (add_paper_to_index okEnv reuseS3 ⟨"C"⟩).2

/-! ## The bijection invariant and basic dictionary lemmas -/

/-- The bijection invariant of the specification: duplicate-free keys on
both id-map directions and on the stored vectors, mutually inverse id
maps, the same id set in the vector index and in the forward map, and
matching counts (ntotal equals the number of id-map entries). -/
def Invariant (s : IndexerState) : Prop :=
  (keysOf s.id_map).Nodup ∧
  (keysOf s.reverse_id_map).Nodup ∧
  (keysOf s.entries).Nodup ∧
  (∀ e ∈ s.entries, e.1 ∈ keysOf s.id_map) ∧
  (∀ i ∈ keysOf s.id_map, i ∈ keysOf s.entries) ∧
  (∀ q ∈ s.id_map, (q.2, q.1) ∈ s.reverse_id_map) ∧
  (∀ q ∈ s.reverse_id_map, (q.2, q.1) ∈ s.id_map) ∧
  s.entries.length = s.id_map.length ∧
  s.reverse_id_map.length = s.id_map.length

instance (s : IndexerState) : Decidable (Invariant s) := by
  unfold Invariant; infer_instance

@[simp]
theorem keysOf_nil {α β : Type} : keysOf ([] : List (α × β)) = [] := rfl

@[simp]
theorem keysOf_cons {α β : Type} (p : α × β) (l : List (α × β)) :
    keysOf (p :: l) = p.1 :: keysOf l := rfl

@[simp]
theorem keysOf_append {α β : Type} (l₁ l₂ : List (α × β)) :
    keysOf (l₁ ++ l₂) = keysOf l₁ ++ keysOf l₂ := by
  simp [keysOf]

theorem mem_keysOf_of_mem {α β : Type} {p : α × β} {l : List (α × β)} (h : p ∈ l) :
    p.1 ∈ keysOf l :=
  List.mem_map_of_mem Prod.fst h

theorem dictGet_mem {α β : Type} [DecidableEq α] {k : α} {v : β} {l : List (α × β)}
    (h : dictGet k l = some v) : (k, v) ∈ l := by
  induction l with
  | nil => simp [dictGet] at h
  | cons p ps ih =>
    rw [dictGet] at h
    by_cases hp : p.1 = k
    · simp [hp] at h
      obtain ⟨a, b⟩ := p
      simp_all
    · simp [hp] at h
      exact List.mem_cons_of_mem _ (ih h)

theorem dictGet_isSome_of_mem {α β : Type} [DecidableEq α] {k : α} {l : List (α × β)}
    (h : k ∈ keysOf l) : ∃ v, dictGet k l = some v := by
  induction l with
  | nil => simp at h
  | cons p ps ih =>
    rw [dictGet]
    by_cases hp : p.1 = k
    · exact ⟨p.2, by simp [hp]⟩
    · simp only [keysOf_cons, List.mem_cons] at h
      rcases h with h | h
      · exact absurd h.symm hp
      · simpa [hp] using ih h

theorem dictGet_eq_none_of_not_mem {α β : Type} [DecidableEq α] {k : α} {l : List (α × β)}
    (h : k ∉ keysOf l) : dictGet k l = none := by
  induction l with
  | nil => rfl
  | cons p ps ih =>
    simp only [keysOf_cons, List.mem_cons, not_or] at h
    rw [dictGet, if_neg (fun hpk => h.1 hpk.symm)]
    exact ih h.2

theorem dictSet_not_mem {α β : Type} [DecidableEq α] {k : α} (v : β) {l : List (α × β)}
    (h : k ∉ keysOf l) : dictSet k v l = l ++ [(k, v)] := by
  simp [dictSet, h]

theorem dictDel_mem {α β : Type} [DecidableEq α] {k : α} {l : List (α × β)}
    (h : k ∈ keysOf l) : dictDel k l = some (l.filter (fun p => p.1 ≠ k)) := by
  simp [dictDel, h]

theorem mem_keysOf_filter {α β : Type} [DecidableEq α] {x k : α} {l : List (α × β)} :
    x ∈ keysOf (l.filter (fun p => p.1 ≠ k)) ↔ x ∈ keysOf l ∧ x ≠ k := by
  simp only [keysOf, List.mem_map, List.mem_filter, decide_not, Bool.not_eq_eq_eq_not,
    Bool.not_true, decide_eq_false_iff_not]
  constructor
  · rintro ⟨a, ⟨ha, hk⟩, rfl⟩
    exact ⟨⟨a, ha, rfl⟩, hk⟩
  · rintro ⟨⟨a, ha, rfl⟩, hk⟩
    exact ⟨a, ⟨ha, hk⟩, rfl⟩

theorem keysOf_filter_sublist {α β : Type} [DecidableEq α] (k : α) (l : List (α × β)) :
    List.Sublist (keysOf (l.filter (fun p => p.1 ≠ k))) (keysOf l) :=
  (List.filter_sublist l).map Prod.fst

theorem filter_keys_eq_self {α β : Type} [DecidableEq α] {k : α} {l : List (α × β)}
    (h : k ∉ keysOf l) : l.filter (fun p => p.1 ≠ k) = l :=
  List.filter_eq_self.mpr (fun p hp => by
    simp only [decide_not, Bool.not_eq_eq_eq_not, Bool.not_true, decide_eq_false_iff_not]
    exact fun hpk => h (hpk ▸ mem_keysOf_of_mem hp))

theorem length_filter_keys {α β : Type} [DecidableEq α] {k : α} {l : List (α × β)}
    (hn : (keysOf l).Nodup) (h : k ∈ keysOf l) :
    (l.filter (fun p => p.1 ≠ k)).length + 1 = l.length := by
  induction l with
  | nil => simp at h
  | cons p ps ih =>
    simp only [keysOf_cons, List.nodup_cons] at hn
    by_cases hp : p.1 = k
    · have hnot : k ∉ keysOf ps := hp ▸ hn.1
      rw [List.filter_cons, if_neg (by simp [hp]), filter_keys_eq_self hnot]
      simp
    · simp only [keysOf_cons, List.mem_cons] at h
      rcases h with h | h
      · exact absurd h.symm hp
      · have ih2 := ih hn.2 h
        rw [List.filter_cons, if_pos (by simp [hp])]
        simp only [List.length_cons]
        omega

theorem nodup_keys_unique {α β : Type} [DecidableEq α] {l : List (α × β)}
    (hn : (keysOf l).Nodup) {k : α} {a b : β} (ha : (k, a) ∈ l) (hb : (k, b) ∈ l) : a = b := by
  induction l with
  | nil => simp at ha
  | cons p ps ih =>
    simp only [keysOf_cons, List.nodup_cons] at hn
    rcases List.mem_cons.mp ha with ha1 | ha1 <;> rcases List.mem_cons.mp hb with hb1 | hb1
    · rw [← ha1] at hb1
      exact (congrArg Prod.snd hb1).symm
    · have hk : k ∈ keysOf ps := mem_keysOf_of_mem hb1
      rw [← ha1] at hn
      exact absurd hk hn.1
    · have hk : k ∈ keysOf ps := mem_keysOf_of_mem ha1
      rw [← hb1] at hn
      exact absurd hk hn.1
    · exact ih hn.2 ha1 hb1

theorem le_listMax {x : Int} {l : List Int} (h : x ∈ l) : x ≤ listMax l := by
  induction l with
  | nil => simp at h
  | cons a as ih =>
    rw [listMax]
    rcases List.mem_cons.mp h with h | h
    · exact h ▸ le_max_left _ _
    · exact le_trans (ih h) (le_max_right _ _)

theorem lt_allocIndexId {i : Int} {m : List (Int × String)} (h : i ∈ keysOf m) :
    i < allocIndexId m := by
  cases m with
  | nil => simp at h
  | cons p ps =>
    have hle := le_listMax h
    rw [allocIndexId]
    omega

theorem nodup_append_singleton {α : Type} {l : List α} {a : α}
    (h1 : l.Nodup) (h2 : a ∉ l) : (l ++ [a]).Nodup := by
  simp [List.nodup_append, h1, h2]

/-! ## Characterisation of remove_paper_from_index -/

theorem mem_keysOf {α β : Type} {x : α} {l : List (α × β)} :
    x ∈ keysOf l ↔ ∃ b, (x, b) ∈ l := by
  simp only [keysOf, List.mem_map]
  constructor
  · rintro ⟨⟨a, b⟩, h, rfl⟩
    exact ⟨b, h⟩
  · rintro ⟨b, h⟩
    exact ⟨(x, b), h, rfl⟩

theorem remove_eq_of_not_mem {env : Env} {s : IndexerState} {aid : String}
    (hmem : aid ∉ keysOf s.reverse_id_map) :
    remove_paper_from_index env s aid = (true, s) := by
  unfold remove_paper_from_index runCaught removePaperBody
  rw [if_neg hmem]

theorem removePaperBody_ok {env : Env} {s : IndexerState} {aid : String} {i : Int}
    (hmem : aid ∈ keysOf s.reverse_id_map)
    (hget : dictGet aid s.reverse_id_map = some i)
    (hidk : i ∈ keysOf s.id_map) :
    removePaperBody env s aid = .ok (true, { s with
      entries := s.entries.filter (fun e => e.1 ≠ i),
      id_map := s.id_map.filter (fun p => p.1 ≠ i),
      reverse_id_map := s.reverse_id_map.filter (fun p => p.1 ≠ aid),
      vectorized := if (env.dbPaper aid).isSome then markFlag aid false s.vectorized
                    else s.vectorized }) := by
  unfold removePaperBody
  rw [if_pos hmem, hget]
  dsimp only
  rw [dictDel_mem hidk]
  dsimp only
  rw [dictDel_mem hmem]

/-- All fields of the state other than the vector entries, the id maps
and the database flags are untouched by remove_paper_from_index, on every
path including the exception paths. -/
theorem remove_fields (env : Env) (s : IndexerState) (aid : String) :
    (remove_paper_from_index env s aid).2.isIVF = s.isIVF ∧
    (remove_paper_from_index env s aid).2.trained = s.trained ∧
    (remove_paper_from_index env s aid).2.dim = s.dim ∧
    (remove_paper_from_index env s aid).2.trace = s.trace := by
  by_cases hmem : aid ∈ keysOf s.reverse_id_map
  · cases hget : dictGet aid s.reverse_id_map with
    | none =>
      unfold remove_paper_from_index runCaught removePaperBody
      simp only [if_pos hmem, hget]
      exact ⟨trivial, trivial, trivial, trivial⟩
    | some i =>
      cases hdel1 : dictDel i s.id_map with
      | none =>
        unfold remove_paper_from_index runCaught removePaperBody
        simp only [if_pos hmem, hget, hdel1]
        exact ⟨trivial, trivial, trivial, trivial⟩
      | some m =>
        cases hdel2 : dictDel aid s.reverse_id_map with
        | none =>
          unfold remove_paper_from_index runCaught removePaperBody
          simp only [if_pos hmem, hget, hdel1, hdel2]
          exact ⟨trivial, trivial, trivial, trivial⟩
        | some r =>
          unfold remove_paper_from_index runCaught removePaperBody
          simp only [if_pos hmem, hget, hdel1, hdel2]
          exact ⟨trivial, trivial, trivial, trivial⟩
  · rw [remove_eq_of_not_mem hmem]
    exact ⟨rfl, rfl, rfl, rfl⟩

/-- Under the bijection invariant remove_paper_from_index succeeds,
preserves the invariant, and leaves the removed key absent from the
reverse map. -/
theorem remove_invariant {env : Env} {s : IndexerState} {aid : String} (hInv : Invariant s) :
    Invariant (remove_paper_from_index env s aid).2 ∧
    aid ∉ keysOf (remove_paper_from_index env s aid).2.reverse_id_map ∧
    (remove_paper_from_index env s aid).1 = true := by
  obtain ⟨h1, h2, h3, h4, h5, h6, h7, h8, h9⟩ := hInv
  by_cases hmem : aid ∈ keysOf s.reverse_id_map
  · obtain ⟨i, hget⟩ := dictGet_isSome_of_mem hmem
    have hpairR : (aid, i) ∈ s.reverse_id_map := dictGet_mem hget
    have hpairF : (i, aid) ∈ s.id_map := h7 _ hpairR
    have hidk : i ∈ keysOf s.id_map := mem_keysOf_of_mem hpairF
    have hident : i ∈ keysOf s.entries := h5 i hidk
    have hrem : remove_paper_from_index env s aid = (true, { s with
        entries := s.entries.filter (fun e => e.1 ≠ i),
        id_map := s.id_map.filter (fun p => p.1 ≠ i),
        reverse_id_map := s.reverse_id_map.filter (fun p => p.1 ≠ aid),
        vectorized := if (env.dbPaper aid).isSome then markFlag aid false s.vectorized
                      else s.vectorized }) := by
      unfold remove_paper_from_index runCaught
      rw [removePaperBody_ok hmem hget hidk]
    rw [hrem]
    refine ⟨⟨?_, ?_, ?_, ?_, ?_, ?_, ?_, ?_, ?_⟩, ?_, rfl⟩
    · exact h1.sublist (keysOf_filter_sublist i s.id_map)
    · exact h2.sublist (keysOf_filter_sublist aid s.reverse_id_map)
    · exact h3.sublist (keysOf_filter_sublist i s.entries)
    · intro e he
      have he2 := List.mem_filter.mp he
      have hne : e.1 ≠ i := by simpa using he2.2
      exact mem_keysOf_filter.mpr ⟨h4 e he2.1, hne⟩
    · intro x hx
      have hx2 := mem_keysOf_filter.mp hx
      exact mem_keysOf_filter.mpr ⟨h5 x hx2.1, hx2.2⟩
    · intro q hq
      have hq2 := List.mem_filter.mp hq
      have hqne : q.1 ≠ i := by simpa using hq2.2
      have hqr : (q.2, q.1) ∈ s.reverse_id_map := h6 q hq2.1
      have hne2 : q.2 ≠ aid := by
        intro hcontra
        rw [hcontra] at hqr
        exact hqne (nodup_keys_unique h2 hqr hpairR)
      exact List.mem_filter.mpr ⟨hqr, by simpa using hne2⟩
    · intro q hq
      have hq2 := List.mem_filter.mp hq
      have hqne : q.1 ≠ aid := by simpa using hq2.2
      have hqf : (q.2, q.1) ∈ s.id_map := h7 q hq2.1
      have hne2 : q.2 ≠ i := by
        intro hcontra
        rw [hcontra] at hqf
        exact hqne (nodup_keys_unique h1 hqf hpairF)
      exact List.mem_filter.mpr ⟨hqf, by simpa using hne2⟩
    · have e1 := length_filter_keys h3 hident
      have e2 := length_filter_keys h1 hidk
      dsimp only
      omega
    · have e2 := length_filter_keys h1 hidk
      have e3 := length_filter_keys h2 hmem
      dsimp only
      omega
    · intro hcontra
      exact (mem_keysOf_filter.mp hcontra).2 rfl
  · rw [remove_eq_of_not_mem hmem]
    exact ⟨⟨h1, h2, h3, h4, h5, h6, h7, h8, h9⟩, hmem, rfl⟩

/-! ## Characterisation of add_paper_to_index -/

theorem addAfterReplace_char (env : Env) (s1 : IndexerState) (p : Paper)
    (htr : s1.trained = true) :
    (runCaught (addAfterReplace env s1 p) false).1 = addSucceeds env s1.dim p ∧
    (runCaught (addAfterReplace env s1 p) false).2.isIVF = s1.isIVF ∧
    (runCaught (addAfterReplace env s1 p) false).2.trained = true ∧
    (runCaught (addAfterReplace env s1 p) false).2.dim = s1.dim ∧
    (runCaught (addAfterReplace env s1 p) false).2.trace =
      s1.trace ++ (if addSucceeds env s1.dim p = true then [TraceEv.added] else []) := by
  unfold addAfterReplace addSucceeds runCaught
  cases hgt : env.getText p with
  | error e => simp [htr]
  | ok t =>
    cases hf : textFalsy t with
    | true => simp [hf, htr]
    | false =>
      cases henc : env.encode (t.getD "") with
      | error e => simp [hf, htr, henc]
      | ok emb =>
        by_cases hdim : emb.length = s1.dim
        · simp [hf, htr, henc, hdim]
        · simp [hf, htr, henc, hdim]

theorem add_char (env : Env) (s : IndexerState) (p : Paper) (hTr : s.trained = true) :
    (add_paper_to_index env s p).1 = addSucceeds env s.dim p ∧
    (add_paper_to_index env s p).2.isIVF = s.isIVF ∧
    (add_paper_to_index env s p).2.trained = true ∧
    (add_paper_to_index env s p).2.dim = s.dim ∧
    (add_paper_to_index env s p).2.trace =
      s.trace ++ (if addSucceeds env s.dim p = true then [TraceEv.added] else []) := by
  unfold add_paper_to_index addPaperBody
  by_cases hmem : p.arxivId ∈ keysOf s.reverse_id_map
  · rw [if_pos hmem]
    obtain ⟨hIVF1, htr1, hdim1, htrace1⟩ := remove_fields env s p.arxivId
    have h := addAfterReplace_char env (remove_paper_from_index env s p.arxivId).2 p
      (htr1.trans hTr)
    rw [hdim1, htrace1, hIVF1] at h
    exact h
  · rw [if_neg hmem]
    exact addAfterReplace_char env s p hTr

theorem addAfterReplace_invariant {env : Env} {s1 : IndexerState} {p : Paper}
    (hInv : Invariant s1) (htr : s1.trained = true)
    (hAid : p.arxivId ∉ keysOf s1.reverse_id_map)
    (hEnc : ∀ t v, env.encode t = Except.ok v → v.length = s1.dim) :
    Invariant (runCaught (addAfterReplace env s1 p) false).2 := by
  unfold addAfterReplace runCaught
  cases hgt : env.getText p with
  | error e => exact hInv
  | ok t =>
    cases hf : textFalsy t with
    | true => simpa [hf] using hInv
    | false =>
      cases henc : env.encode (t.getD "") with
      | error e => simpa [hf, henc] using hInv
      | ok emb =>
        obtain ⟨h1, h2, h3, h4, h5, h6, h7, h8, h9⟩ := hInv
        have hfresh : allocIndexId s1.id_map ∉ keysOf s1.id_map :=
          fun hc => absurd (lt_allocIndexId hc) (lt_irrefl _)
        have hfreshE : allocIndexId s1.id_map ∉ keysOf s1.entries := by
          intro hc
          obtain ⟨v, hv⟩ := mem_keysOf.mp hc
          exact hfresh (h4 _ hv)
        have hdimE : emb.length = s1.dim := hEnc _ _ henc
        simp only [hf, henc, Bool.false_eq_true, if_false]
        rw [if_neg (by simp [htr]), if_neg (by simp [hdimE])]
        dsimp only
        rw [dictSet_not_mem _ hfresh, dictSet_not_mem _ hAid]
        refine ⟨?_, ?_, ?_, ?_, ?_, ?_, ?_, ?_, ?_⟩
        · simpa using nodup_append_singleton h1 hfresh
        · simpa using nodup_append_singleton h2 hAid
        · simpa using nodup_append_singleton h3 hfreshE
        · intro e he
          rcases List.mem_append.mp he with he | he
          · simp only [keysOf_append, List.mem_append]
            exact Or.inl (h4 e he)
          · simp only [List.mem_singleton] at he
            simp [he]
        · intro x hx
          simp only [keysOf_append, List.mem_append] at hx ⊢
          rcases hx with hx | hx
          · exact Or.inl (h5 x hx)
          · exact Or.inr (by simpa using hx)
        · intro q hq
          rcases List.mem_append.mp hq with hq | hq
          · exact List.mem_append.mpr (Or.inl (h6 q hq))
          · simp only [List.mem_singleton] at hq
            subst hq
            simp
        · intro q hq
          rcases List.mem_append.mp hq with hq | hq
          · exact List.mem_append.mpr (Or.inl (h7 q hq))
          · simp only [List.mem_singleton] at hq
            subst hq
            simp
        · simp only [List.length_append, List.length_singleton]
          omega
        · simp only [List.length_append, List.length_singleton]
          omega

/-- add_paper_to_index preserves the bijection invariant whenever the
index is trained and the embedding model only produces vectors of the
index dimension. -/
theorem add_invariant {env : Env} {s : IndexerState} {p : Paper}
    (hInv : Invariant s) (hTr : s.trained = true)
    (hEnc : ∀ t v, env.encode t = Except.ok v → v.length = s.dim) :
    Invariant (add_paper_to_index env s p).2 := by
  unfold add_paper_to_index addPaperBody
  by_cases hmem : p.arxivId ∈ keysOf s.reverse_id_map
  · rw [if_pos hmem]
    obtain ⟨hInv1, hAid, _⟩ := @remove_invariant env s p.arxivId hInv
    obtain ⟨_, htr1, hdim1, _⟩ := remove_fields env s p.arxivId
    exact addAfterReplace_invariant hInv1 (htr1.trans hTr) hAid
      (fun t v hv => by rw [hdim1]; exact hEnc t v hv)
  · rw [if_neg hmem]
    exact addAfterReplace_invariant hInv hTr hmem hEnc

/-! ## The checkpoint trace of update_index -/

theorem addsIn_append (t1 t2 : List TraceEv) :
    addsIn (t1 ++ t2) = addsIn t1 + addsIn t2 :=
  List.countP_append _ t1 t2

theorem savesIn_append (t1 t2 : List TraceEv) :
    savesIn (t1 ++ t2) = savesIn t1 + savesIn t2 :=
  List.countP_append _ t1 t2

@[simp]
theorem addsIn_nil : addsIn [] = 0 := rfl

@[simp]
theorem savesIn_nil : savesIn [] = 0 := rfl

@[simp]
theorem addsIn_saved : addsIn [TraceEv.saved] = 0 := rfl

@[simp]
theorem savesIn_saved : savesIn [TraceEv.saved] = 1 := rfl

@[simp]
theorem addsIn_added : addsIn [TraceEv.added] = 1 := rfl

@[simp]
theorem savesIn_added : savesIn [TraceEv.added] = 0 := rfl

theorem take_concat_cases {α : Type} (tr : List α) (x : α) (n : Nat) :
    (tr ++ [x]).take n = tr.take n ∨ (tr ++ [x]).take n = tr ++ [x] := by
  rcases le_or_lt n tr.length with h | h
  · left
    rw [List.take_append_eq_append_take]
    simp [Nat.sub_eq_zero_of_le h]
  · right
    apply List.take_of_length_le
    simp
    omega

theorem traceBound_nil : TraceBound [] := by
  intro n
  simp [TraceBound]

theorem traceBound_append_saved {tr : List TraceEv} (h : TraceBound tr) :
    TraceBound (tr ++ [TraceEv.saved]) := by
  intro n
  rcases take_concat_cases tr TraceEv.saved n with hc | hc
  · rw [hc]
    exact h n
  · rw [hc, addsIn_append, savesIn_append]
    have h2 := h tr.length
    rw [List.take_length] at h2
    simp
    omega

theorem traceBound_append_added {tr : List TraceEv} (h : TraceBound tr)
    (h2 : addsIn tr ≤ 10 * savesIn tr + 9) : TraceBound (tr ++ [TraceEv.added]) := by
  intro n
  rcases take_concat_cases tr TraceEv.added n with hc | hc
  · rw [hc]
    exact h n
  · rw [hc, addsIn_append, savesIn_append]
    simp
    omega

theorem save_index_ok {env : Env} {s : IndexerState} (hSave : env.save = Except.ok ()) :
    save_index env s = .ok { s with trace := s.trace ++ [TraceEv.saved] } := by
  unfold save_index
  rw [hSave]

theorem updateLoop_spec (env : Env) (d : Nat) (hSave : env.save = Except.ok ()) :
    ∀ (ps : List Paper) (count : Nat) (s : IndexerState),
      s.trained = true → s.dim = d → LoopInv s.trace count →
      ∃ s2, updateLoop env ps count s =
          .ok (count + (ps.filter (fun p => addSucceeds env d p)).length, s2) ∧
        s2.trained = true ∧ s2.dim = d ∧
        LoopInv s2.trace (count + (ps.filter (fun p => addSucceeds env d p)).length) := by
  intro ps
  induction ps with
  | nil =>
    intro count s htr hdim hinv
    exact ⟨s, by simp [updateLoop], htr, hdim, by simpa using hinv⟩
  | cons p ps ih =>
    intro count s htr hdim hinv
    obtain ⟨hb, hcnt, hmod⟩ := hinv
    obtain ⟨hres, hIVF, htr2, hdim2, htrace⟩ := add_char env s p htr
    rw [hdim] at hres htrace
    rw [updateLoop]
    cases hsucc : addSucceeds env d p with
    | true =>
      rw [hsucc] at hres htrace
      simp only [hres, if_true]
      have htrb1 : TraceBound (add_paper_to_index env s p).2.trace := by
        rw [htrace]
        simp only [if_true]
        exact traceBound_append_added hb (by omega)
      have hadds1 : addsIn (add_paper_to_index env s p).2.trace = count + 1 := by
        rw [htrace, if_pos rfl, addsIn_append]
        simp [hcnt]
      have hsaves1 : savesIn (add_paper_to_index env s p).2.trace = savesIn s.trace := by
        rw [htrace, if_pos rfl, savesIn_append]
        simp
      have harith : count + (List.filter (fun p => addSucceeds env d p) (p :: ps)).length =
          count + 1 + (List.filter (fun p => addSucceeds env d p) ps).length := by
        rw [List.filter_cons_of_pos (by simpa using hsucc)]
        simp
        omega
      by_cases hm : (count + 1) % 10 = 0
      · rw [if_pos (show count + 1 > 0 ∧ (count + 1) % 10 = 0 by omega)]
        obtain ⟨s2, heq2, htr3, hdim3, hinv3⟩ := ih (count + 1)
          { (add_paper_to_index env s p).2 with
            trace := (add_paper_to_index env s p).2.trace ++ [TraceEv.saved] }
          htr2 (hdim2.trans hdim)
          (by
            refine ⟨traceBound_append_saved htrb1, ?_, ?_⟩
            · rw [addsIn_append, hadds1]
              simp
            · rw [savesIn_append, hsaves1]
              simp
              omega)
        refine ⟨s2, ?_, htr3, hdim3, ?_⟩
        · rw [save_index_ok hSave]
          show updateLoop env ps (count + 1)
              { (add_paper_to_index env s p).2 with
                trace := (add_paper_to_index env s p).2.trace ++ [TraceEv.saved] } =
            Except.ok (count + (List.filter (fun p => addSucceeds env d p) (p :: ps)).length, s2)
          rw [harith]
          exact heq2
        · rw [harith]
          exact hinv3
      · rw [if_neg (by omega)]
        obtain ⟨s2, heq2, htr3, hdim3, hinv3⟩ := ih (count + 1) (add_paper_to_index env s p).2
          htr2 (hdim2.trans hdim)
          (by
            refine ⟨htrb1, hadds1, ?_⟩
            rw [hsaves1]
            omega)
        refine ⟨s2, ?_, htr3, hdim3, ?_⟩
        · rw [harith]
          exact heq2
        · rw [harith]
          exact hinv3
    | false =>
      rw [hsucc] at hres htrace
      simp only [hres, Bool.false_eq_true, if_false]
      have htrace0 : (add_paper_to_index env s p).2.trace = s.trace := by
        rw [htrace]
        simp
      have harith : (List.filter (fun p => addSucceeds env d p) (p :: ps)).length =
          (List.filter (fun p => addSucceeds env d p) ps).length := by
        rw [List.filter_cons_of_neg (by simpa using hsucc)]
      by_cases hm : count > 0 ∧ count % 10 = 0
      · rw [if_pos hm]
        obtain ⟨s2, heq2, htr3, hdim3, hinv3⟩ := ih count
          { (add_paper_to_index env s p).2 with
            trace := (add_paper_to_index env s p).2.trace ++ [TraceEv.saved] }
          htr2 (hdim2.trans hdim)
          (by
            refine ⟨?_, ?_, ?_⟩
            · rw [htrace0]
              exact traceBound_append_saved hb
            · rw [addsIn_append, htrace0]
              simp [hcnt]
            · rw [savesIn_append, htrace0]
              simp
              omega)
        refine ⟨s2, ?_, htr3, hdim3, ?_⟩
        · rw [save_index_ok hSave]
          show updateLoop env ps count
              { (add_paper_to_index env s p).2 with
                trace := (add_paper_to_index env s p).2.trace ++ [TraceEv.saved] } =
            Except.ok (count + (List.filter (fun p => addSucceeds env d p) (p :: ps)).length, s2)
          rw [harith]
          exact heq2
        · rw [harith]
          exact hinv3
      · rw [if_neg hm]
        obtain ⟨s2, heq2, htr3, hdim3, hinv3⟩ := ih count (add_paper_to_index env s p).2
          htr2 (hdim2.trans hdim) (by rw [htrace0]; exact ⟨hb, hcnt, hmod⟩)
        refine ⟨s2, ?_, htr3, hdim3, ?_⟩
        · rw [harith]
          exact heq2
        · rw [harith]
          exact hinv3

/-! ## Invariant preservation through update_index and operation sequences -/

theorem updateLoop_invariant (env : Env) (d : Nat)
    (hEnc : ∀ t v, env.encode t = Except.ok v → v.length = d) :
    ∀ (ps : List Paper) (count : Nat) (s : IndexerState),
      Invariant s → s.trained = true → s.dim = d →
      (∀ c s2, updateLoop env ps count s = .ok (c, s2) →
        Invariant s2 ∧ s2.trained = true ∧ s2.dim = d) ∧
      (∀ e s2, updateLoop env ps count s = .error (e, s2) →
        Invariant s2 ∧ s2.trained = true ∧ s2.dim = d) := by
  intro ps
  induction ps with
  | nil =>
    intro count s hInv htr hdim
    constructor
    · intro c s2 heq
      rw [updateLoop] at heq
      cases heq
      exact ⟨hInv, htr, hdim⟩
    · intro e s2 heq
      rw [updateLoop] at heq
      cases heq
  | cons p ps ih =>
    intro count s hInv htr hdim
    have hInv2 : Invariant (add_paper_to_index env s p).2 :=
      add_invariant hInv htr (by rw [hdim]; exact hEnc)
    obtain ⟨_, _, htr2, hdim2, _⟩ := add_char env s p htr
    have hdim2d : (add_paper_to_index env s p).2.dim = d := hdim2.trans hdim
    have hInvSaved : Invariant { (add_paper_to_index env s p).2 with
        trace := (add_paper_to_index env s p).2.trace ++ [TraceEv.saved] } := hInv2
    rw [updateLoop]
    cases hres : (add_paper_to_index env s p).1 with
    | true =>
      simp only [hres, if_true]
      by_cases hm : count + 1 > 0 ∧ (count + 1) % 10 = 0
      · rw [if_pos hm]
        cases hsv : env.save with
        | error e =>
          have hserr : save_index env (add_paper_to_index env s p).2 =
              .error (e, (add_paper_to_index env s p).2) := by
            unfold save_index
            rw [hsv]
          rw [hserr]
          constructor
          · intro c s2 heq
            cases heq
          · intro e2 s2 heq
            cases heq
            exact ⟨hInv2, htr2, hdim2d⟩
        | ok u =>
          cases u
          rw [save_index_ok hsv]
          exact ih (count + 1) _ hInvSaved htr2 hdim2d
      · rw [if_neg hm]
        exact ih (count + 1) _ hInv2 htr2 hdim2d
    | false =>
      simp only [hres, Bool.false_eq_true, if_false]
      by_cases hm : count > 0 ∧ count % 10 = 0
      · rw [if_pos hm]
        cases hsv : env.save with
        | error e =>
          have hserr : save_index env (add_paper_to_index env s p).2 =
              .error (e, (add_paper_to_index env s p).2) := by
            unfold save_index
            rw [hsv]
          rw [hserr]
          constructor
          · intro c s2 heq
            cases heq
          · intro e2 s2 heq
            cases heq
            exact ⟨hInv2, htr2, hdim2d⟩
        | ok u =>
          cases u
          rw [save_index_ok hsv]
          exact ih count _ hInvSaved htr2 hdim2d
      · rw [if_neg hm]
        exact ih count _ hInv2 htr2 hdim2d

theorem update_invariant {env : Env} {cfg : Config} {s : IndexerState} {batchSize : Nat}
    (hInv : Invariant s) (hTr : s.trained = true)
    (hEnc : ∀ t v, env.encode t = Except.ok v → v.length = s.dim) :
    Invariant (update_index env cfg s batchSize).2 ∧
    (update_index env cfg s batchSize).2.trained = true ∧
    (update_index env cfg s batchSize).2.dim = s.dim := by
  unfold update_index runCaught updateIndexBody
  by_cases hp : (env.unvectorized batchSize).isEmpty = true
  · rw [if_pos hp]
    exact ⟨hInv, hTr, rfl⟩
  · rw [if_neg hp, if_neg (by simp [hTr])]
    dsimp only
    obtain ⟨hok, herr⟩ :=
      updateLoop_invariant env s.dim hEnc (env.unvectorized batchSize) 0 s hInv hTr rfl
    cases hl : updateLoop env (env.unvectorized batchSize) 0 s with
    | error es =>
      obtain ⟨e, s2⟩ := es
      exact herr e s2 hl
    | ok cs =>
      obtain ⟨c, s2⟩ := cs
      have h2 := hok c s2 hl
      dsimp only
      by_cases hc : c > 0
      · rw [if_pos hc]
        cases hsv : env.save with
        | error e =>
          have hserr : save_index env s2 = .error (e, s2) := by
            unfold save_index
            rw [hsv]
          rw [hserr]
          exact h2
        | ok u =>
          cases u
          rw [save_index_ok hsv]
          exact h2
      · rw [if_neg hc]
        exact h2

theorem runOps_invariant (env : Env) (cfg : Config) (d : Nat)
    (hEnc : ∀ t v, env.encode t = Except.ok v → v.length = d) :
    ∀ (ops : List Op) (s : IndexerState), Invariant s → s.trained = true → s.dim = d →
      Invariant (runOps env cfg ops s) ∧ (runOps env cfg ops s).trained = true ∧
      (runOps env cfg ops s).dim = d := by
  intro ops
  induction ops with
  | nil =>
    intro s h1 h2 h3
    exact ⟨h1, h2, h3⟩
  | cons o os ih =>
    intro s h1 h2 h3
    rw [runOps.eq_def]
    cases o with
    | addP p =>
      have hi := @add_invariant env s p h1 h2 (by rw [h3]; exact hEnc)
      obtain ⟨_, _, ht, hd, _⟩ := add_char env s p h2
      exact ih _ hi ht (hd.trans h3)
    | removeP aid =>
      obtain ⟨hi, _, _⟩ := @remove_invariant env s aid h1
      obtain ⟨_, ht, hd, _⟩ := remove_fields env s aid
      exact ih _ hi (ht.trans h2) (hd.trans h3)
    | updateI b =>
      obtain ⟨hi, ht, hd⟩ := @update_invariant env cfg s b h1 h2
        (by rw [h3]; exact hEnc)
      exact ih _ hi ht (hd.trans h3)

/-! ## Search lemmas -/

theorem filterMap_snd_sublist {α β γ : Type} (f : α × γ → Option (β × γ))
    (hf : ∀ r x, f r = some x → x.2 = r.2) (l : List (α × γ)) :
    List.Sublist ((l.filterMap f).map Prod.snd) (l.map Prod.snd) := by
  induction l with
  | nil => simp
  | cons a as ih =>
    rw [List.filterMap_cons]
    cases hfa : f a with
    | none =>
      simp only [List.map_cons]
      exact ih.cons a.2
    | some b =>
      simp only [List.map_cons]
      rw [hf a b hfa]
      exact ih.cons₂ a.2

theorem sorted_snd_insertionSort (l : List (Int × Int)) :
    List.Pairwise (fun a b : Int × Int => a.2 ≤ b.2)
      (List.insertionSort (fun a b => a.2 ≤ b.2) l) := by
  haveI : IsTotal (Int × Int) (fun a b : Int × Int => a.2 ≤ b.2) :=
    ⟨fun a b => le_total a.2 b.2⟩
  haveI : IsTrans (Int × Int) (fun a b : Int × Int => a.2 ≤ b.2) :=
    ⟨fun a b c hab hbc => le_trans hab hbc⟩
  exact List.sorted_insertionSort _ l

theorem idToKey_snd {id_map : List (Int × String)} {r : Int × Int} {x : String × Int}
    (h : idToKey id_map r = some x) : x.2 = r.2 := by
  unfold idToKey at h
  by_cases h1 : r.1 ≠ -1
  · rw [if_pos h1] at h
    cases hg : dictGet r.1 id_map with
    | none =>
      rw [hg] at h
      cases h
    | some aid =>
      rw [hg] at h
      dsimp only at h
      by_cases h2 : aid.isEmpty = true
      · rw [if_pos h2] at h
        cases h
      · rw [if_neg h2] at h
        cases h
        rfl
  · rw [if_neg h1] at h
    cases h


/-! ## Claim theorems -/

/-- Claim C1, amended: starting from any state that satisfies the
bijection invariant and whose index is trained, and with an embedding
model that only produces vectors of the index dimension, every sequence
of add_paper_to_index, remove_paper_from_index and update_index
operations preserves the bijection invariant — every internal id stored
in the vector index has exactly one id-map entry and vice versa, the two
map directions are mutual inverses, and ntotal equals the number of
id-map entries.  The trained-index restriction is forced by the code:
with the default IVFFlat configuration a fresh index is untrained,
add_with_ids raises after the id maps were already updated, and the
caught exception leaves a dangling id-map entry. -/
theorem bijection_invariant_trained (env : Env) (cfg : Config) (s : IndexerState)
    (ops : List Op) (hInv : Invariant s) (hTr : s.trained = true)
    (hEnc : ∀ t v, env.encode t = Except.ok v → v.length = s.dim) :
    Invariant (runOps env cfg ops s) ∧
    (runOps env cfg ops s).entries.length = (runOps env cfg ops s).id_map.length := by
  obtain ⟨h1, h2, h3⟩ := runOps_invariant env cfg s.dim hEnc ops s hInv hTr rfl
  exact ⟨h1, h1.2.2.2.2.2.2.2.1⟩

/-- Witness for C1 at a concrete trained state and operation sequence. -/
theorem bijection_invariant_trained_witness :
    (runOps okEnv cfgIVF [Op.addP ⟨"A"⟩, Op.addP ⟨"B"⟩, Op.removeP "A"] flatState).entries.length =
      (runOps okEnv cfgIVF [Op.addP ⟨"A"⟩, Op.addP ⟨"B"⟩, Op.removeP "A"] flatState).id_map.length :=
  (bijection_invariant_trained okEnv cfgIVF flatState
    [Op.addP ⟨"A"⟩, Op.addP ⟨"B"⟩, Op.removeP "A"] (by decide) rfl
    (fun t v h => by injection h with h2; rw [← h2]; rfl)).2

/-- Counterexample for C1 as stated: from the fresh untrained IVF state
(the default FAISS_INDEX_TYPE is IVFFlat) a single add_paper_to_index
call reaches a state that violates the bijection invariant — add_with_ids
raises because the index is untrained, the exception is caught after both
id-map directions were updated, and the dangling entry makes ntotal
differ from the id-map size. -/
theorem bijection_invariant_cex :
    Invariant ivfState ∧
    ¬ Invariant (runOps okEnv cfgIVF [Op.addP ⟨"A"⟩] ivfState) ∧
    (runOps okEnv cfgIVF [Op.addP ⟨"A"⟩] ivfState).entries.length ≠
      (runOps okEnv cfgIVF [Op.addP ⟨"A"⟩] ivfState).id_map.length := by
  refine ⟨by decide, by decide, by decide⟩

/-- Claim C2, amended: when the key is not already present in the index,
a failure of add_paper_to_index to obtain a non-empty text or to encode
it returns false and leaves the whole state (vector entries, both id-map
directions, database flags and trace) exactly as before the call.  The
already-present case of the claim is false on the code: the source
removes the existing entry before fetching the text, so a text failure
after a replace leaves the key un-indexed (see the counterexample). -/
theorem add_failure_atomic_when_absent (env : Env) (s : IndexerState) (p : Paper)
    (hAbs : p.arxivId ∉ keysOf s.reverse_id_map)
    (hFail : (∃ e, env.getText p = .error e) ∨
             (∃ t, env.getText p = .ok t ∧ textFalsy t = true) ∨
             (∃ t e, env.getText p = .ok (some t) ∧ textFalsy (some t) = false ∧
               env.encode t = .error e)) :
    add_paper_to_index env s p = (false, s) := by
  unfold add_paper_to_index runCaught addPaperBody addAfterReplace
  rw [if_neg hAbs]
  rcases hFail with ⟨e, he⟩ | ⟨t, ht, hf⟩ | ⟨t, e, ht, hf, he⟩
  · rw [he]
  · rw [ht]
    simp [hf]
  · rw [ht]
    simp [hf, he]

/-- Witness for C2: missing text for an absent key changes nothing. -/
theorem add_failure_atomic_witness :
    add_paper_to_index noTextEnv flatState ⟨"A"⟩ = (false, flatState) :=
  add_failure_atomic_when_absent noTextEnv flatState ⟨"A"⟩ (by decide)
    (Or.inr (Or.inl ⟨none, rfl, rfl⟩))

/-- Counterexample for C2 as stated: with key "A" already indexed and a
collaborator that now yields no text, add_paper_to_index returns false
but the state has changed — the pre-existing entry for "A" was removed
before the text check, so the call is not atomic on failure. -/
theorem add_failure_atomic_cex :
    (add_paper_to_index noTextEnv stateWithA ⟨"A"⟩).1 = false ∧
    (add_paper_to_index noTextEnv stateWithA ⟨"A"⟩).2 ≠ stateWithA ∧
    (add_paper_to_index noTextEnv stateWithA ⟨"A"⟩).2.id_map = [] := by
  refine ⟨by decide, by decide, by decide⟩

/-- Claim C3, amended: the internal id allocated by add_paper_to_index is
1 on an empty id map and max(existing ids) + 1 otherwise, hence strictly
greater than every id currently live (so unique among live entries) and
positive whenever all live ids are positive.  The never-reused-across-
lifetime part of the claim is false on the code: the allocator only looks
at the ids currently in the map, so after removing the entry holding the
maximal id the same id is handed out again (see the counterexample). -/
theorem alloc_id_fresh_above_live (m : List (Int × String)) :
    (m = [] → allocIndexId m = 1) ∧
    (∀ i ∈ keysOf m, i < allocIndexId m) ∧
    ((∀ i ∈ keysOf m, 0 < i) → 0 < allocIndexId m) := by
  refine ⟨?_, ?_, ?_⟩
  · intro h
    subst h
    rfl
  · intro i hi
    exact lt_allocIndexId hi
  · intro hpos
    cases m with
    | nil => decide
    | cons p ps =>
      have h1 := lt_allocIndexId (show p.1 ∈ keysOf (p :: ps) by simp)
      have h2 := hpos p.1 (by simp)
      omega

/-- Witness for C3 on a concrete id map. -/
theorem alloc_id_fresh_above_live_witness :
    ((3 : Int) < allocIndexId [(1, "A"), (3, "B")]) ∧
    (0 < allocIndexId [(1, "A"), (3, "B")]) :=
  ⟨(alloc_id_fresh_above_live [(1, "A"), (3, "B")]).2.1 3 (by decide),
   (alloc_id_fresh_above_live [(1, "A"), (3, "B")]).2.2 (by decide)⟩

/-- Counterexample for C3 as stated: internal id 2 is assigned to "B";
after "B" is removed, the same manager assigns id 2 again, to "C" — ids
are reused after a removal, refuting monotone never-reused allocation. -/
theorem internal_id_reuse_cex :
    dictGet "B" reuseS2.reverse_id_map = some 2 ∧
    dictGet "B" reuseS4.reverse_id_map = none ∧
    dictGet "C" reuseS4.reverse_id_map = some 2 := by
  refine ⟨by decide, by decide, by decide⟩

/-- Claim C4: for every query vector and every topK, find_similar_papers
returns at most min(topK, ntotal) results, sorted by non-decreasing
(squared, hence also plain) L2 distance, returns the empty list when the
index holds zero vectors, and does not mutate the index or id maps (the
returned state is the input state on every path). -/
theorem search_bound_and_sorted (s : IndexerState) (q : List Int) (topK : Nat) :
    (find_similar_papers s q topK).1.length ≤ min topK s.entries.length ∧
    List.Pairwise (· ≤ ·) ((find_similar_papers s q topK).1.map Prod.snd) ∧
    (s.entries.length = 0 → (find_similar_papers s q topK).1 = []) ∧
    (find_similar_papers s q topK).2 = s := by
  unfold find_similar_papers runCaught findSimilarBody
  by_cases hz : s.entries.length = 0
  · rw [if_pos hz]
    exact ⟨by simp, by simp, fun _ => rfl, rfl⟩
  · rw [if_neg hz]
    by_cases hd : q.length ≠ s.dim
    · rw [if_pos hd]
      exact ⟨by simp, by simp, fun h => absurd h hz, rfl⟩
    · rw [if_neg hd]
      dsimp only
      have hsub := filterMap_snd_sublist (idToKey s.id_map)
        (fun r x h => idToKey_snd h)
        ((List.insertionSort (fun a b => a.2 ≤ b.2)
          (s.entries.map (fun e => (e.1, sqDist q e.2)))).take (min topK s.entries.length))
      refine ⟨?_, ?_, fun h => absurd h hz, rfl⟩
      · have h1 := hsub.length_le
        rw [List.length_map, List.length_map, List.length_take,
          List.length_insertionSort, List.length_map] at h1
        omega
      · have hs1 := sorted_snd_insertionSort (s.entries.map (fun e => (e.1, sqDist q e.2)))
        have hs2 := hs1.sublist (List.take_sublist (min topK s.entries.length) _)
        have hs3 : List.Pairwise (fun a b : Int => a ≤ b)
            (((List.insertionSort (fun a b => a.2 ≤ b.2)
              (s.entries.map (fun e => (e.1, sqDist q e.2)))).take
                (min topK s.entries.length)).map Prod.snd) :=
          List.pairwise_map.mpr hs2
        exact hs3.sublist hsub

/-- Witness for C4: searching the empty index returns the empty list, and
the bound holds there. -/
theorem search_bound_and_sorted_witness :
    (find_similar_papers flatState [0] 5).1 = [] ∧
    (find_similar_papers flatState [0] 5).1.length ≤ min 5 flatState.entries.length :=
  ⟨(search_bound_and_sorted flatState [0] 5).2.2.1 rfl,
   (search_bound_and_sorted flatState [0] 5).1⟩

/-- Claim C5: find_similar_papers_by_id requests topK + 1 neighbours,
filters out the query key and truncates to topK, so for every
environment, state, key and topK — including topK at least the document
count — its output never contains the query key and never has more than
topK entries. -/
theorem self_exclusion_by_id (env : Env) (s : IndexerState) (aid : String) (topK : Nat) :
    (∀ x ∈ (find_similar_papers_by_id env s aid topK).1, x.1 ≠ aid) ∧
    (find_similar_papers_by_id env s aid topK).1.length ≤ topK := by
  unfold find_similar_papers_by_id runCaught findSimilarByIdBody
  cases hdb : env.dbPaper aid with
  | none => simp [hdb]
  | some p =>
    cases hgt : env.getText p with
    | error e => simp [hdb, hgt]
    | ok t =>
      cases hf : textFalsy t with
      | true => simp [hdb, hgt, hf]
      | false =>
        cases henc : env.encode (t.getD "") with
        | error e => simp [hdb, hgt, hf, henc]
        | ok qv =>
          simp only [hdb, hgt, hf, henc, Bool.false_eq_true, if_false]
          constructor
          · intro x hx
            have hx2 := List.mem_of_mem_take hx
            have hx3 := List.mem_filter.mp hx2
            simpa using hx3.2
          · rw [List.length_take]
            exact min_le_left _ _

/-- Witness for C5 on the three-document scenario: key "A" is excluded
from its own neighbour list, and the list respects the bound. -/
theorem self_exclusion_by_id_witness :
    (("B", (1 : Int)).1 ≠ "A") ∧
    (find_similar_papers_by_id dbEnv threeState "A" 2).1.length ≤ 2 :=
  ⟨(self_exclusion_by_id dbEnv threeState "A" 2).1 ("B", 1) (by decide),
   (self_exclusion_by_id dbEnv threeState "A" 2).2⟩

/-- Claim C6, amended: update_index has no sample-size guard of its
own, and no InsufficientTrainingDataError or degraded-training warning
exists anywhere in the source.  When the clustered index is untrained and
the gathered training sample is smaller than the configured cluster
count, the faiss training call raises (faiss refuses fewer training
points than clusters); the blanket except of update_index catches the
exception, only logs it, and the call returns 0 with the state — index
untrained, nothing added — exactly as before.  The caller therefore sees
the plain count 0, indistinguishable from the ordinary
no-pending-documents result: the failure is neither typed nor flagged. -/
theorem insufficient_training_returns_zero (env : Env) (cfg : Config) (s : IndexerState)
    (batchSize : Nat) (vs : List (List Int))
    (hType : cfg.indexType = "IVFFlat") (hIVF : s.isIVF = true) (hUntr : s.trained = false)
    (hPend : (env.unvectorized batchSize).isEmpty = false)
    (hVecs : collectTrainVecs env
        ((env.unvectorized batchSize).take (min 100 (env.unvectorized batchSize).length)) =
        .ok vs)
    (hNe : vs.isEmpty = false)
    (hSmall : vs.length < cfg.nlist) :
    updateIndexBody env cfg s batchSize = .error (Err.trainTooFewPoints, s) ∧
    update_index env cfg s batchSize = (0, s) := by
  have hbody : updateIndexBody env cfg s batchSize = .error (Err.trainTooFewPoints, s) := by
    unfold updateIndexBody
    rw [if_neg (by simp [hPend]), if_pos ⟨hType, by simp [hIVF], hUntr⟩]
    dsimp only
    rw [hVecs]
    dsimp only
    rw [if_neg (by simp [hNe]), if_pos hSmall]
  exact ⟨hbody, by unfold update_index runCaught; rw [hbody]⟩

/-- Witness for C6: five pending papers against cluster count 100 — the
training raise is caught and the call returns 0 with the state intact. -/
theorem insufficient_training_returns_zero_witness :
    updateIndexBody fiveEnv cfgIVF ivfState 50 = .error (Err.trainTooFewPoints, ivfState) ∧
    update_index fiveEnv cfgIVF ivfState 50 = (0, ivfState) :=
  insufficient_training_returns_zero fiveEnv cfgIVF ivfState 50 [[0], [0], [0], [0], [0]]
    rfl rfl rfl (by decide) rfl (by decide) (by decide)

/-- Counterexample for C6 as stated: with five pending papers and 100
configured clusters the training sample has 5 < 100 vectors; the library
raise is swallowed by the blanket except and update_index returns the
bare count 0 with the index untrained and nothing added — the same
observable result as running update_index with no pending papers at all.
No InsufficientTrainingDataError and no degraded-training warning is
surfaced to the caller. -/
theorem insufficient_training_cex :
    (fiveEnv.unvectorized 50).length < cfgIVF.nlist ∧
    updateIndexBody fiveEnv cfgIVF ivfState 50 = .error (Err.trainTooFewPoints, ivfState) ∧
    update_index fiveEnv cfgIVF ivfState 50 = (0, ivfState) ∧
    (update_index fiveEnv cfgIVF ivfState 50).2.trained = false ∧
    update_index okEnv cfgIVF ivfState 50 = (0, ivfState) := by
  refine ⟨by decide, rfl, by decide, by decide, by decide⟩

/-- Claim C7, amended: when the index is already trained and persistence
succeeds, update_index returns exactly the number of pending documents
whose addition succeeds (each document is attempted independently, so one
failing document never prevents the others from being added), the trace
of the call satisfies the checkpoint bound — at no point are more than
ten additions unpersisted, which is the every-ten-successes checkpoint
policy — and when anything was added the call ends with a final save.
The training-phase restriction is forced by the code: when the clustered
index still needs training, a get-text or encode exception raised while
collecting the training sample aborts the entire call, which returns 0
and skips all pending documents (see the counterexample). -/
theorem update_batch_contract_trained (env : Env) (cfg : Config) (s : IndexerState)
    (batchSize : Nat) (hTr : s.trained = true) (hSave : env.save = Except.ok ())
    (hTrace : s.trace = []) :
    (update_index env cfg s batchSize).1 =
      ((env.unvectorized batchSize).filter (fun p => addSucceeds env s.dim p)).length ∧
    TraceBound (update_index env cfg s batchSize).2.trace ∧
    ((update_index env cfg s batchSize).1 > 0 →
      (update_index env cfg s batchSize).2.trace.getLast? = some TraceEv.saved) := by
  unfold update_index runCaught updateIndexBody
  by_cases hp : (env.unvectorized batchSize).isEmpty = true
  · rw [if_pos hp]
    have hpe : env.unvectorized batchSize = [] := List.isEmpty_iff.mp hp
    rw [hpe]
    exact ⟨rfl, by rw [hTrace]; exact traceBound_nil, fun h => absurd h (Nat.lt_irrefl 0)⟩
  · rw [if_neg hp, if_neg (by simp [hTr])]
    dsimp only
    obtain ⟨s2, hloop, htr2, hdim2, hinv2⟩ := updateLoop_spec env s.dim hSave
      (env.unvectorized batchSize) 0 s hTr rfl
      (by rw [hTrace]; exact ⟨traceBound_nil, rfl, by simp⟩)
    rw [hloop]
    dsimp only
    by_cases hc : 0 + ((env.unvectorized batchSize).filter
        (fun p => addSucceeds env s.dim p)).length > 0
    · rw [if_pos hc, save_index_ok hSave]
      refine ⟨?_, traceBound_append_saved hinv2.1, fun _ => List.getLast?_concat _⟩
      show 0 + ((env.unvectorized batchSize).filter
          (fun p => addSucceeds env s.dim p)).length =
        ((env.unvectorized batchSize).filter (fun p => addSucceeds env s.dim p)).length
      omega
    · rw [if_neg hc]
      refine ⟨?_, hinv2.1, fun h => absurd h hc⟩
      show 0 + ((env.unvectorized batchSize).filter
          (fun p => addSucceeds env s.dim p)).length =
        ((env.unvectorized batchSize).filter (fun p => addSucceeds env s.dim p)).length
      omega

/-- Witness for C7: twelve pending papers on a trained index — all are
added, every prefix of the trace respects the unsaved-work bound, and the
call ends with a save. -/
theorem update_batch_contract_trained_witness :
    (update_index batchEnv cfgIVF flatState 50).1 = 12 ∧
    addsIn ((update_index batchEnv cfgIVF flatState 50).2.trace.take 10) ≤
      10 * savesIn ((update_index batchEnv cfgIVF flatState 50).2.trace.take 10) + 10 ∧
    (update_index batchEnv cfgIVF flatState 50).2.trace.getLast? = some TraceEv.saved := by
  have h := update_batch_contract_trained batchEnv cfgIVF flatState 50 rfl rfl rfl
  exact ⟨h.1.trans (by decide), h.2.1 10, h.2.2 (by rw [h.1]; decide)⟩

/-- Counterexample for C7 as stated: with the default untrained IVFFlat
index, an encode failure for the first pending paper strikes while the
training sample is being collected; the exception aborts the whole
update_index call, which returns 0 with the state unchanged, although the
second pending paper would have been added successfully — a per-document
failure aborted the remainder of the batch. -/
theorem update_batch_training_abort_cex :
    update_index trainAbortEnv cfgIVF ivfState 50 = (0, ivfState) ∧
    addSucceeds trainAbortEnv ivfState.dim ⟨"p2"⟩ = true := by
  refine ⟨by decide, by decide⟩

/-- Claim C8, amended: an unknown key and a known key with no usable text
both make find_similar_papers_by_id return the ordinary empty result list
with unchanged state, and its body reports a normal ok — no
DocumentNotFoundError and no NoTextError is raised, so the two failures
are not distinguishable from an ordinary empty result. -/
theorem lookup_errors_return_empty (env : Env) (s : IndexerState) (aid : String) (topK : Nat) :
    (env.dbPaper aid = none →
      findSimilarByIdBody env s aid topK = .ok ([], s) ∧
      find_similar_papers_by_id env s aid topK = ([], s)) ∧
    (∀ p t, env.dbPaper aid = some p → env.getText p = .ok t → textFalsy t = true →
      findSimilarByIdBody env s aid topK = .ok ([], s) ∧
      find_similar_papers_by_id env s aid topK = ([], s)) := by
  constructor
  · intro hdb
    have hb : findSimilarByIdBody env s aid topK = .ok ([], s) := by
      unfold findSimilarByIdBody
      rw [hdb]
    exact ⟨hb, by unfold find_similar_papers_by_id; rw [hb]; rfl⟩
  · intro p t hdb hgt hf
    have hb : findSimilarByIdBody env s aid topK = .ok ([], s) := by
      unfold findSimilarByIdBody
      rw [hdb]
      simp [hgt, hf]
    exact ⟨hb, by unfold find_similar_papers_by_id; rw [hb]; rfl⟩

/-- Witness for C8: an unknown key and a known key without text, both on
the three-document index. -/
theorem lookup_errors_return_empty_witness :
    find_similar_papers_by_id okEnv threeState "zz" 5 = ([], threeState) ∧
    find_similar_papers_by_id noTextDbEnv threeState "A" 5 = ([], threeState) :=
  ⟨((lookup_errors_return_empty okEnv threeState "zz" 5).1 rfl).2,
   ((lookup_errors_return_empty noTextDbEnv threeState "A" 5).2 ⟨"A"⟩ none rfl rfl rfl).2⟩

/-- Counterexample for C8 as stated: for an unknown key the body reports
ok with the plain empty list — it does not fail with
DocumentNotFoundError; for a known key with no text it likewise reports
ok [] rather than NoTextError. -/
theorem lookup_errors_cex :
    (findSimilarByIdBody okEnv threeState "zz" 5).isOk = true ∧
    find_similar_papers_by_id okEnv threeState "zz" 5 = ([], threeState) ∧
    (findSimilarByIdBody noTextDbEnv threeState "A" 5).isOk = true ∧
    find_similar_papers_by_id noTextDbEnv threeState "A" 5 = ([], threeState) := by
  refine ⟨by decide, by decide, by decide, by decide⟩

/-- Claim C9, amended: an empty or whitespace-only query text makes
find_similar_papers_by_text return the ordinary empty result list
immediately — before any encoding or search, as the early return precedes
the try block — and its body reports a normal ok; no EmptyQueryError is
raised (no such error exists in the source). -/
theorem blank_query_returns_empty (env : Env) (s : IndexerState) (qt : String) (topK : Nat)
    (hb : stripFalsy qt = true) :
    findSimilarByTextBody env s qt topK = .ok ([], s) ∧
    find_similar_papers_by_text env s qt topK = ([], s) := by
  have h1 : findSimilarByTextBody env s qt topK = .ok ([], s) := by
    unfold findSimilarByTextBody
    rw [hb]
    rfl
  exact ⟨h1, by unfold find_similar_papers_by_text; rw [h1]; rfl⟩

/-- Witness for C9: a whitespace-only query on the three-document index. -/
theorem blank_query_returns_empty_witness :
    find_similar_papers_by_text okEnv threeState "   " 7 = ([], threeState) :=
  (blank_query_returns_empty okEnv threeState "   " 7 (by decide)).2

/-- Counterexample for C9 as stated: the whitespace-only query " " is
answered with a normal empty-list return and an ok body — it is not
rejected with an EmptyQueryError. -/
theorem blank_query_cex :
    (findSimilarByTextBody okEnv threeState " " 5).isOk = true ∧
    find_similar_papers_by_text okEnv threeState " " 5 = ([], threeState) := by
  refine ⟨by decide, by decide⟩

theorem runCaught_spec {α : Type} (body : Except (Err × IndexerState) (α × IndexerState))
    (dflt : α) :
    (∃ v, body = .ok v ∧ runCaught body dflt = v) ∨
    (∃ e s1, body = .error (e, s1) ∧ runCaught body dflt = (dflt, s1)) := by
  cases body with
  | ok v => exact Or.inl ⟨v, rfl, rfl⟩
  | error es =>
    obtain ⟨e, s1⟩ := es
    exact Or.inr ⟨e, s1, rfl, rfl⟩

/-- Claim C10: every public operation is total.  For every environment
(including environments whose collaborator calls throw), configuration,
state and arguments, each public method either returns the normal result
of its body, or its body raises and the method returns the default value
of its except clause — false for add and remove, the empty list for the
three search operations, and 0 for update_index (a Nat, hence
non-negative).  No exception escapes to the caller. -/
theorem public_interface_total (env : Env) (cfg : Config) (s : IndexerState) (p : Paper)
    (aid : String) (q : List Int) (qt : String) (k bs : Nat) :
    ((∃ v, addPaperBody env s p = .ok v ∧ add_paper_to_index env s p = v) ∨
     (∃ e s1, addPaperBody env s p = .error (e, s1) ∧
       add_paper_to_index env s p = (false, s1))) ∧
    ((∃ v, removePaperBody env s aid = .ok v ∧ remove_paper_from_index env s aid = v) ∨
     (∃ e s1, removePaperBody env s aid = .error (e, s1) ∧
       remove_paper_from_index env s aid = (false, s1))) ∧
    ((∃ v, findSimilarBody s q k = .ok v ∧ find_similar_papers s q k = v) ∨
     (∃ e s1, findSimilarBody s q k = .error (e, s1) ∧
       find_similar_papers s q k = ([], s1))) ∧
    ((∃ v, findSimilarByIdBody env s aid k = .ok v ∧
       find_similar_papers_by_id env s aid k = v) ∨
     (∃ e s1, findSimilarByIdBody env s aid k = .error (e, s1) ∧
       find_similar_papers_by_id env s aid k = ([], s1))) ∧
    ((∃ v, findSimilarByTextBody env s qt k = .ok v ∧
       find_similar_papers_by_text env s qt k = v) ∨
     (∃ e s1, findSimilarByTextBody env s qt k = .error (e, s1) ∧
       find_similar_papers_by_text env s qt k = ([], s1))) ∧
    ((∃ v, updateIndexBody env cfg s bs = .ok v ∧ update_index env cfg s bs = v) ∨
     (∃ e s1, updateIndexBody env cfg s bs = .error (e, s1) ∧
       update_index env cfg s bs = (0, s1))) :=
  ⟨runCaught_spec (addPaperBody env s p) false,
   runCaught_spec (removePaperBody env s aid) false,
   runCaught_spec (findSimilarBody s q k) [],
   runCaught_spec (findSimilarByIdBody env s aid k) [],
   runCaught_spec (findSimilarByTextBody env s qt k) [],
   runCaught_spec (updateIndexBody env cfg s bs) 0⟩

end AIdx
